import Mathlib

/-!
Verification of the condition-dependency resolver and waterfall-query compiler
of the `pythonwf` repository, as a shallow embedding in Lean.

The embedding follows `src/pythonwf/construct_sql/construct_sql.py`
(`SQLConstructor._prepare_conditions`, `_parse_unique_identifiers`),
`src/pythonwf/construct_sql/waterfall.py` (`WaterfallSQLConstructor`),
`src/pythonwf/validations/construct_sql.py` (`validate_unique_identifiers`),
`src/pythonwf/validations/eligibility.py` (`validate_conditions`) and
`src/pythonwf/waterfall/waterfall.py` (`Waterfall._step3_create_dataframes`).

Ordered Python dicts are modelled as association lists; Python `set`s, whose
iteration order is unspecified (string hashing is randomized), are modelled by
an explicit iteration-order parameter constrained to be a permutation of the
inserted elements.
-/

namespace PythonWF

/-- A leaf eligibility check as supplied in the input hierarchy `conditions`:
the per-check dictionary fields `sql`, `output` and `description`. -/
structure Check where
  sql : String
  output : Bool
  description : String
deriving Repr, DecidableEq

/-- One template of a channel: the template name with its ordered checks. -/
abbrev Template := String × List Check

/-- The input hierarchy `conditions`: insertion-ordered mapping
channel name to (template name to ordered list of checks). -/
abbrev Hierarchy := List (String × List Template)

/-- Column naming convention of `_prepare_conditions`:
`column_naming_convention.format(channel=channel, template=template, num=num)`
with `num` the 1-based position of the check in its template. -/
def columnName (channel template : String) (num : Nat) : String :=
  channel ++ "_" ++ template ++ "_" ++ toString num

/-- The column names stamped onto the checks of one template, in list order
(`for num, check in enumerate(checks, start=1)`). -/
def templateColumnNames (channel template : String) (checks : List Check) : List String :=
  (List.range checks.length).map (fun i => columnName channel template (i + 1))

/-- All column names assigned by the registration loop of `_prepare_conditions`,
in channel order, then template order, then check list order. -/
def allColumnNames (h : Hierarchy) : List String :=
  h.flatMap (fun c => c.2.flatMap (fun t => templateColumnNames c.1 t.1 t.2))

/-- The channel/template search loop of `_prepare_conditions`.  A match inside a
channel whose name is the empty string does not stop the outer loop, because the
source guards the outer break with `if selected_channel:` (Python string
truthiness); a check located only in such channels ends up with no selection. -/
def findCheckLocation (h : Hierarchy) (cn : String) : Option (String × String) :=
  h.findSome? (fun c =>
    if c.1 = "" then none
    else (c.2.find? (fun t => (templateColumnNames c.1 t.1 t.2).contains cn)).map
      (fun t => (c.1, t.1)))

/-- Dictionary lookup `self.conditions[ch]` (first binding of the key). -/
def channelTemplates? (h : Hierarchy) (ch : String) : Option (List Template) :=
  (h.find? (fun c => c.1 == ch)).map Prod.snd

/-- Total variant of `channelTemplates?`, used where the source lookup is
guaranteed to succeed (the channel was found in the hierarchy). -/
def channelTemplatesD (h : Hierarchy) (ch : String) : List Template :=
  (channelTemplates? h ch).getD []

/-- One step of the `add_checks` helper:
`if check['column_name'] not in selected_checks_list: append`. -/
def insertFresh (l : List String) (x : String) : List String :=
  if x ∈ l then l else l ++ [x]

/-- The inner loop of `add_checks` over the checks of one template. -/
def addTemplateChecks (acc : List String) (channel : String) (t : Template) : List String :=
  (templateColumnNames channel t.1 t.2).foldl insertFresh acc

/-- The `add_checks` helper applied to one channel: every template, every check. -/
def addChannelChecks (acc : List String) (channel : String) (ts : List Template) : List String :=
  ts.foldl (fun a t => addTemplateChecks a channel t) acc

/-- The template loop inside the else branch of `_prepare_conditions`:
within one channel, checks of every template named like the selected template
or `BA` are appended when not already present. -/
def matchTemplateFold (selT channelName : String) (acc : List String) (ts : List Template) : List String :=
  ts.foldl (fun a2 t => if t.1 = selT ∨ t.1 = "BA" then addTemplateChecks a2 channelName t else a2) acc

/-- The else-branch loop of `_prepare_conditions`: every channel other than
`main` (the loop does not exclude the selected check's own channel), every
template whose name equals the selected template or `BA`. -/
def addMatchingChecks (h : Hierarchy) (selT : String) (acc : List String) : List String :=
  h.foldl (fun a c => if c.1 ≠ "main" then matchTemplateFold selT c.1 a c.2 else a) acc

/-- The `no_output` and `output` buckets of one template:
column names of the checks with `output` false, resp. true, in list order. -/
structure TemplateBuckets where
  no_output : List String
  output : List String
deriving Repr, DecidableEq

/-- Bucket construction used for `prior_templates` and `post_templates`. -/
def bucketsFor (channel tname : String) (checks : List Check) : TemplateBuckets :=
  { no_output :=
      (checks.enum.filter (fun p => !p.2.output)).map (fun p => columnName channel tname (p.1 + 1))
    output :=
      (checks.enum.filter (fun p => p.2.output)).map (fun p => columnName channel tname (p.1 + 1)) }

/-- The value stored in `result[column_name]` when the check was located:
`base`, `prior_templates` and `post_templates`. -/
structure DepEntry where
  base : List String
  prior_templates : List (String × TemplateBuckets)
  post_templates : List (String × TemplateBuckets)
deriving Repr, DecidableEq

/-- A value of the `_conditions_column_mappings` dictionary: either the string
`"Check not found"` or a dependency entry. -/
inductive Resolved where
  | notFound : Resolved
  | entry : DepEntry → Resolved
deriving Repr, DecidableEq

/-- The per-column-name body of the `_prepare_conditions` loop.  `none` models
the Python `KeyError` raised inside `add_checks` when the hierarchy has no
`main` channel (both branches access `self.conditions['main']` first). -/
def resolveEntry (h : Hierarchy) (cn : String) : Option Resolved :=
  match findCheckLocation h cn with
  | none => some Resolved.notFound
  | some (selCh, selT) =>
    match channelTemplates? h "main" with
    | none => none
    | some mainTs =>
      let base0 :=
        if selCh = "main" ∨ selT = "BA" then
          addChannelChecks (addChannelChecks [] "main" mainTs) selCh (channelTemplatesD h selCh)
        else
          addMatchingChecks h selT (addChannelChecks [] "main" mainTs)
      let base := base0.erase cn
      let ts := channelTemplatesD h selCh
      let priorNames := ts.takeWhile (fun t => t.1 != selT)
      let prior := (priorNames.filter (fun t => t.1 != "BA")).map
        (fun t => (t.1, bucketsFor selCh t.1 t.2))
      let post := ((ts.drop (priorNames.length + 1)).filter (fun t => t.1 != "BA")).map
        (fun t => (t.1, bucketsFor selCh t.1 t.2))
      some (Resolved.entry { base := base, prior_templates := prior, post_templates := post })

/-- The dictionary `_conditions_column_mappings` built by `_prepare_conditions`:
one entry per element of the `column_names` set, in the set's iteration order
`order`.  `none` models the `KeyError` described at `resolveEntry`. -/
def prepareConditions (h : Hierarchy) : List String → Option (List (String × Resolved))
  | [] => some []
  | cn :: rest =>
    match resolveEntry h cn, prepareConditions h rest with
    | some r, some m => some ((cn, r) :: m)
    | _, _ => none

/-- A sample check used by the concrete scenarios below. -/
def check0 : Check := { sql := "x = 1", output := false, description := "d" }

/-- Sample hierarchy: baseline channel `main` with one `BA` check, and a channel
`promo` with one `BA` check and a template `seg` holding two checks. -/
def h1 : Hierarchy :=
  [("main", [("BA", [check0])]),
   ("promo", [("BA", [check0]), ("seg", [check0, check0])])]

example : allColumnNames h1 = ["main_BA_1", "promo_BA_1", "promo_seg_1", "promo_seg_2"] := by
  decide

example : findCheckLocation h1 "promo_seg_1" = some ("promo", "seg") := by decide

example :
    resolveEntry h1 "promo_seg_1" =
      some (Resolved.entry
        { base := ["main_BA_1", "promo_BA_1", "promo_seg_2"]
          prior_templates := []
          post_templates := [] }) := by
  decide

example :
    resolveEntry h1 "promo_BA_1" =
      some (Resolved.entry
        { base := ["main_BA_1", "promo_seg_1", "promo_seg_2"]
          prior_templates := []
          post_templates := [("seg", { no_output := ["promo_seg_1", "promo_seg_2"], output := [] })] }) := by
  decide

/-! ### Membership and duplicate-freeness of the `add_checks` accumulators -/

theorem mem_insertFresh {l : List String} {x y : String} :
    y ∈ insertFresh l x ↔ y ∈ l ∨ y = x := by
  by_cases hx : x ∈ l
  · simp only [insertFresh, if_pos hx]
    constructor
    · exact Or.inl
    · rintro (hy | rfl)
      · exact hy
      · exact hx
  · simp [insertFresh, if_neg hx]

theorem nodup_insertFresh {l : List String} {x : String} (h : l.Nodup) :
    (insertFresh l x).Nodup := by
  by_cases hx : x ∈ l
  · simpa [insertFresh, if_pos hx] using h
  · simp [insertFresh, if_neg hx, List.nodup_append, h, hx]

theorem mem_foldl_insertFresh {names : List String} :
    ∀ {acc : List String} {y : String},
      y ∈ names.foldl insertFresh acc ↔ y ∈ acc ∨ y ∈ names := by
  induction names with
  | nil => simp
  | cons n ns ih =>
    intro acc y
    rw [List.foldl_cons, ih, mem_insertFresh, List.mem_cons]
    tauto

theorem nodup_foldl_insertFresh {names : List String} :
    ∀ {acc : List String}, acc.Nodup → (names.foldl insertFresh acc).Nodup := by
  induction names with
  | nil => intro acc h; simpa using h
  | cons n ns ih => intro acc h; exact ih (nodup_insertFresh h)

theorem mem_addTemplateChecks {acc : List String} {channel : String} {t : Template} {y : String} :
    y ∈ addTemplateChecks acc channel t ↔ y ∈ acc ∨ y ∈ templateColumnNames channel t.1 t.2 :=
  mem_foldl_insertFresh

theorem nodup_addTemplateChecks {acc : List String} {channel : String} {t : Template}
    (h : acc.Nodup) : (addTemplateChecks acc channel t).Nodup :=
  nodup_foldl_insertFresh h

theorem mem_addChannelChecks {ts : List Template} :
    ∀ {acc : List String} {channel y : String},
      y ∈ addChannelChecks acc channel ts ↔
        y ∈ acc ∨ y ∈ ts.flatMap (fun t => templateColumnNames channel t.1 t.2) := by
  induction ts with
  | nil => intro acc channel y; simp [addChannelChecks]
  | cons t ts ih =>
    intro acc channel y
    show y ∈ addChannelChecks (addTemplateChecks acc channel t) channel ts ↔ _
    rw [ih, mem_addTemplateChecks, List.flatMap_cons, List.mem_append]
    tauto

theorem nodup_addChannelChecks {ts : List Template} :
    ∀ {acc : List String} {channel : String}, acc.Nodup → (addChannelChecks acc channel ts).Nodup := by
  induction ts with
  | nil => intro acc channel h; simpa [addChannelChecks] using h
  | cons t ts ih =>
    intro acc channel h
    exact ih (nodup_addTemplateChecks h)

/-- The column names of the baseline channel's checks, as read back from the
hierarchy (`add_checks(['main', ...])` reads `self.conditions['main']`). -/
def mainChecksNames (h : Hierarchy) : List String :=
  (channelTemplatesD h "main").flatMap (fun t => templateColumnNames "main" t.1 t.2)

/-- The column names gathered by the else-branch loop of `_prepare_conditions`:
checks of every template named like the selected template or `BA`, in every
channel other than `main`. -/
def matchingChecksNames (h : Hierarchy) (selT : String) : List String :=
  (h.filter (fun c => c.1 != "main")).flatMap (fun c =>
    (c.2.filter (fun t => t.1 == selT || t.1 == "BA")).flatMap
      (fun t => templateColumnNames c.1 t.1 t.2))

theorem matchTemplateFold_cons {selT channelName : String} {acc : List String}
    {t : Template} {ts : List Template} :
    matchTemplateFold selT channelName acc (t :: ts) =
      matchTemplateFold selT channelName
        (if t.1 = selT ∨ t.1 = "BA" then addTemplateChecks acc channelName t else acc) ts := rfl

theorem addMatchingChecks_cons {h : Hierarchy} {selT : String} {acc : List String}
    {c : String × List Template} :
    addMatchingChecks (c :: h) selT acc =
      addMatchingChecks h selT (if c.1 ≠ "main" then matchTemplateFold selT c.1 acc c.2 else acc) := rfl

theorem mem_matchTemplateFold {selT channelName : String} {ts : List Template} :
    ∀ {acc : List String} {y : String},
      y ∈ matchTemplateFold selT channelName acc ts ↔
        y ∈ acc ∨ y ∈ (ts.filter (fun t => t.1 == selT || t.1 == "BA")).flatMap
          (fun t => templateColumnNames channelName t.1 t.2) := by
  induction ts with
  | nil => intro acc y; simp [matchTemplateFold]
  | cons t ts ih =>
    intro acc y
    rw [matchTemplateFold_cons]
    by_cases hmatch : t.1 = selT ∨ t.1 = "BA"
    · have hb : (t.1 == selT || t.1 == "BA") = true := by
        rcases hmatch with hm | hm <;> simp [hm]
      rw [if_pos hmatch, ih, mem_addTemplateChecks,
        List.filter_cons_of_pos (p := fun t : Template => t.1 == selT || t.1 == "BA") hb,
        List.flatMap_cons, List.mem_append]
      tauto
    · have hb : (t.1 == selT || t.1 == "BA") = false := by
        rw [not_or] at hmatch
        simp [hmatch.1, hmatch.2]
      rw [if_neg hmatch, ih,
        List.filter_cons_of_neg (p := fun t : Template => t.1 == selT || t.1 == "BA")
          (by simp [hb])]

theorem nodup_matchTemplateFold {selT channelName : String} {ts : List Template} :
    ∀ {acc : List String}, acc.Nodup → (matchTemplateFold selT channelName acc ts).Nodup := by
  induction ts with
  | nil => intro acc h; exact h
  | cons t ts ih =>
    intro acc h
    rw [matchTemplateFold_cons]
    by_cases hmatch : t.1 = selT ∨ t.1 = "BA"
    · rw [if_pos hmatch]; exact ih (nodup_addTemplateChecks h)
    · rw [if_neg hmatch]; exact ih h

theorem mem_addMatchingChecks {selT : String} {h : Hierarchy} :
    ∀ {acc : List String} {y : String},
      y ∈ addMatchingChecks h selT acc ↔ y ∈ acc ∨ y ∈ matchingChecksNames h selT := by
  induction h with
  | nil => intro acc y; simp [addMatchingChecks, matchingChecksNames]
  | cons c h ih =>
    intro acc y
    rw [addMatchingChecks_cons]
    by_cases hc : c.1 ≠ "main"
    · have hb : (c.1 != "main") = true := by simpa using hc
      rw [if_pos hc, ih, mem_matchTemplateFold]
      simp only [matchingChecksNames]
      rw [List.filter_cons_of_pos (p := fun c : String × List Template => c.1 != "main") hb,
        List.flatMap_cons, List.mem_append]
      tauto
    · have hb : (c.1 != "main") = false := by simpa using hc
      rw [if_neg hc, ih]
      simp only [matchingChecksNames]
      rw [List.filter_cons_of_neg (p := fun c : String × List Template => c.1 != "main")
        (by simp [hb])]

theorem nodup_addMatchingChecks {selT : String} {h : Hierarchy} :
    ∀ {acc : List String}, acc.Nodup → (addMatchingChecks h selT acc).Nodup := by
  induction h with
  | nil => intro acc hn; exact hn
  | cons c h ih =>
    intro acc hn
    rw [addMatchingChecks_cons]
    by_cases hc : c.1 ≠ "main"
    · rw [if_pos hc]; exact ih (nodup_matchTemplateFold hn)
    · rw [if_neg hc]; exact ih hn

/-- The raw base list of `_prepare_conditions` before the self-removal step,
for a check located at `(selCh, selT)`. -/
def rawBase (h : Hierarchy) (selCh selT : String) (mainTs : List Template) : List String :=
  if selCh = "main" ∨ selT = "BA" then
    addChannelChecks (addChannelChecks [] "main" mainTs) selCh (channelTemplatesD h selCh)
  else addMatchingChecks h selT (addChannelChecks [] "main" mainTs)

/-- The prior-template buckets of a check located at `(selCh, selT)`. -/
def priorTemplatesOf (h : Hierarchy) (selCh selT : String) : List (String × TemplateBuckets) :=
  (((channelTemplatesD h selCh).takeWhile (fun t => t.1 != selT)).filter
    (fun t => t.1 != "BA")).map (fun t => (t.1, bucketsFor selCh t.1 t.2))

/-- The post-template buckets of a check located at `(selCh, selT)`. -/
def postTemplatesOf (h : Hierarchy) (selCh selT : String) : List (String × TemplateBuckets) :=
  (((channelTemplatesD h selCh).drop
      (((channelTemplatesD h selCh).takeWhile (fun t => t.1 != selT)).length + 1)).filter
    (fun t => t.1 != "BA")).map (fun t => (t.1, bucketsFor selCh t.1 t.2))

theorem resolveEntry_found {h : Hierarchy} {cn selCh selT : String} {mainTs : List Template}
    (hloc : findCheckLocation h cn = some (selCh, selT))
    (hmain : channelTemplates? h "main" = some mainTs) :
    resolveEntry h cn = some (Resolved.entry
      { base := (rawBase h selCh selT mainTs).erase cn
        prior_templates := priorTemplatesOf h selCh selT
        post_templates := postTemplatesOf h selCh selT }) := by
  unfold resolveEntry
  rw [hloc, hmain]
  rfl

theorem resolveEntry_not_located {h : Hierarchy} {cn : String}
    (hloc : findCheckLocation h cn = none) :
    resolveEntry h cn = some Resolved.notFound := by
  unfold resolveEntry
  rw [hloc]

/-- The `base` list built by `_prepare_conditions` never contains duplicates:
every insertion point guards with `not in selected_checks_list`. -/
theorem nodup_rawBase (h : Hierarchy) (selCh selT : String) (mainTs : List Template) :
    (rawBase h selCh selT mainTs).Nodup := by
  unfold rawBase
  by_cases hb : selCh = "main" ∨ selT = "BA"
  · rw [if_pos hb]
    exact nodup_addChannelChecks (nodup_addChannelChecks List.nodup_nil)
  · rw [if_neg hb]
    exact nodup_addMatchingChecks (nodup_addChannelChecks List.nodup_nil)

theorem resolved_entry_shape {h : Hierarchy} {cn : String} {e : DepEntry}
    (he : resolveEntry h cn = some (Resolved.entry e)) :
    ∃ selCh selT mainTs, findCheckLocation h cn = some (selCh, selT) ∧
      channelTemplates? h "main" = some mainTs ∧
      e.base = (rawBase h selCh selT mainTs).erase cn := by
  rcases hloc : findCheckLocation h cn with _ | ⟨selCh, selT⟩
  · rw [resolveEntry_not_located hloc] at he
    cases Option.some.inj he
  · rcases hmain : channelTemplates? h "main" with _ | mainTs
    · unfold resolveEntry at he
      rw [hloc, hmain] at he
      cases he
    · rw [resolveEntry_found hloc hmain] at he
      rcases Resolved.entry.inj (Option.some.inj he) with rfl
      exact ⟨selCh, selT, mainTs, rfl, rfl, rfl⟩

/-! ### Claim C1: shape of the base set for non-baseline checks -/

/-- Base set as worded by claim C1: the baseline channel's checks united, for
every channel different from the check's own channel, with the checks of each
template named like the check's template or the baseline template. -/
def claimBaseC1 (h : Hierarchy) (selCh selT : String) : List String :=
  mainChecksNames h ++
    (h.filter (fun c => c.1 != selCh)).flatMap (fun c =>
      (c.2.filter (fun t => t.1 == selT || t.1 == "BA")).flatMap
        (fun t => templateColumnNames c.1 t.1 t.2))

/-- Counterexample to claim C1: `promo_seg_1` lives in channel `promo` and
template `seg` (neither baseline), yet its resolved base contains
`promo_seg_2` — a check of its own channel and own non-baseline template —
because the source loop `for channel ... if channel != 'main'` does not skip
the selected check's own channel.  The claim's base-set formula
(`claimBaseC1`), which only ranges over channels different from the check's
own, excludes that name. -/
theorem claim_C1_counterexample :
    findCheckLocation h1 "promo_seg_1" = some ("promo", "seg")
    ∧ resolveEntry h1 "promo_seg_1" =
        some (Resolved.entry
          { base := ["main_BA_1", "promo_BA_1", "promo_seg_2"]
            prior_templates := []
            post_templates := [] })
    ∧ "promo_seg_2" ∈ ["main_BA_1", "promo_BA_1", "promo_seg_2"]
    ∧ "promo_seg_2" ∉ claimBaseC1 h1 "promo" "seg" := by
  decide

/-- Claim C1 as amended: for a check in a non-baseline channel and a
non-baseline template, the resolved base set consists of the baseline channel's
checks united, for every channel other than the baseline channel — including
the check's own channel — with all checks of each template named like the
check's template or `BA`, minus the check's own column name. -/
theorem claim_C1 (h : Hierarchy) (cn selCh selT : String) (mainTs : List Template)
    (hloc : findCheckLocation h cn = some (selCh, selT))
    (hch : selCh ≠ "main") (ht : selT ≠ "BA")
    (hmain : channelTemplates? h "main" = some mainTs) :
    ∃ e : DepEntry, resolveEntry h cn = some (Resolved.entry e) ∧
      ∀ x : String,
        x ∈ e.base ↔ ((x ∈ mainChecksNames h ∨ x ∈ matchingChecksNames h selT) ∧ x ≠ cn) := by
  refine ⟨_, resolveEntry_found hloc hmain, ?_⟩
  intro x
  show x ∈ (rawBase h selCh selT mainTs).erase cn ↔ _
  have hraw : rawBase h selCh selT mainTs =
      addMatchingChecks h selT (addChannelChecks [] "main" mainTs) := by
    unfold rawBase
    rw [if_neg (by tauto)]
  have hnodup : (addMatchingChecks h selT (addChannelChecks [] "main" mainTs)).Nodup :=
    nodup_addMatchingChecks (nodup_addChannelChecks List.nodup_nil)
  have hmd : channelTemplatesD h "main" = mainTs := by
    unfold channelTemplatesD
    rw [hmain]
    rfl
  rw [hraw, hnodup.mem_erase_iff, mem_addMatchingChecks, mem_addChannelChecks]
  simp only [mainChecksNames, hmd, List.not_mem_nil, false_or]
  tauto

/-- Witness for the amended claim C1 at the sample hierarchy. -/
theorem claim_C1_witness :
    ∃ e : DepEntry, resolveEntry h1 "promo_seg_1" = some (Resolved.entry e) ∧
      ∀ x : String,
        x ∈ e.base ↔
          ((x ∈ mainChecksNames h1 ∨ x ∈ matchingChecksNames h1 "seg") ∧ x ≠ "promo_seg_1") :=
  claim_C1 h1 "promo_seg_1" "promo" "seg" [("BA", [check0])]
    (by decide) (by decide) (by decide) (by decide)

/-! ### Claim C5: keys of the dependency map -/

theorem resolveEntry_isSome {h : Hierarchy} (cn : String) {mainTs : List Template}
    (hmain : channelTemplates? h "main" = some mainTs) :
    ∃ r, resolveEntry h cn = some r := by
  rcases hloc : findCheckLocation h cn with _ | ⟨selCh, selT⟩
  · exact ⟨_, resolveEntry_not_located hloc⟩
  · exact ⟨_, resolveEntry_found hloc hmain⟩

theorem prepareConditions_keys {h : Hierarchy} {mainTs : List Template}
    (hmain : channelTemplates? h "main" = some mainTs) :
    ∀ order : List String,
      ∃ m, prepareConditions h order = some m ∧ m.map Prod.fst = order := by
  intro order
  induction order with
  | nil => exact ⟨[], rfl, rfl⟩
  | cons cn rest ih =>
    obtain ⟨m, hm, hk⟩ := ih
    obtain ⟨r, hr⟩ := resolveEntry_isSome cn hmain
    refine ⟨(cn, r) :: m, ?_, by simp [hk]⟩
    show prepareConditions h (cn :: rest) = _
    unfold prepareConditions
    rw [hr, hm]

/-- Counterexample to claim C5: the dependency map built from the sample
hierarchy has `main_BA_1` — the column name of a baseline-channel check — as a
key, while the claim states that baseline-channel checks never appear as keys. -/
theorem claim_C5_counterexample :
    (prepareConditions h1 (allColumnNames h1)).map (fun m => m.map Prod.fst) =
      some ["main_BA_1", "promo_BA_1", "promo_seg_1", "promo_seg_2"]
    ∧ "main_BA_1" ∈ allColumnNames h1
    ∧ "main_BA_1" = columnName "main" "BA" 1 := by
  decide

/-- Claim C5 as amended: the resolved dependency map has one entry per assigned
column name — including the baseline channel's own checks — its key list being
exactly the iteration order of the `column_names` set. -/
theorem claim_C5 (h : Hierarchy) (order : List String) (mainTs : List Template)
    (hmain : channelTemplates? h "main" = some mainTs)
    (horder : order.Perm (allColumnNames h).dedup) :
    ∃ m, prepareConditions h order = some m ∧ m.map Prod.fst = order ∧
      ∀ cn ∈ allColumnNames h, cn ∈ m.map Prod.fst := by
  obtain ⟨m, hm, hk⟩ := prepareConditions_keys hmain order
  refine ⟨m, hm, hk, ?_⟩
  intro cn hcn
  rw [hk]
  exact horder.mem_iff.mpr (List.mem_dedup.mpr hcn)

/-- Witness for the amended claim C5 at the sample hierarchy. -/
theorem claim_C5_witness :
    ∃ m, prepareConditions h1 (allColumnNames h1) = some m ∧
      m.map Prod.fst = allColumnNames h1 ∧
      ∀ cn ∈ allColumnNames h1, cn ∈ m.map Prod.fst :=
  claim_C5 h1 (allColumnNames h1) [("BA", [check0])] (by decide) (by decide)

/-! ### Claim C6: a check never depends on itself -/

/-- Claim C6: for every check in every hierarchy, the check's own column name is
not a member of the `base` list of its own dependency entry (the source removes
the name after building the duplicate-free list). -/
theorem claim_C6 (h : Hierarchy) (cn : String) (e : DepEntry)
    (he : resolveEntry h cn = some (Resolved.entry e)) : cn ∉ e.base := by
  obtain ⟨selCh, selT, mainTs, _, _, hbase⟩ := resolved_entry_shape he
  rw [hbase]
  exact (nodup_rawBase h selCh selT mainTs).not_mem_erase

/-- Witness for C6 at the sample hierarchy: the baseline-template check
`promo_BA_1` of channel `promo` does not appear in its own base. -/
theorem claim_C6_witness :
    resolveEntry h1 "promo_BA_1" =
      some (Resolved.entry
        { base := ["main_BA_1", "promo_seg_1", "promo_seg_2"]
          prior_templates := []
          post_templates := [("seg", { no_output := ["promo_seg_1", "promo_seg_2"], output := [] })] })
    ∧ "promo_BA_1" ∉
        ({ base := ["main_BA_1", "promo_seg_1", "promo_seg_2"]
           prior_templates := []
           post_templates := [("seg", { no_output := ["promo_seg_1", "promo_seg_2"], output := [] })] : DepEntry }).base :=
  ⟨by decide, claim_C6 h1 "promo_BA_1" _ (by decide)⟩

/-! ### Waterfall query generation (`construct_sql/waterfall.py`) -/

/-- Python `sep.join(parts)`. -/
def joinWith (sep : String) : List String → String
  | [] => ""
  | [x] => x
  | x :: y :: xs => x ++ sep ++ joinWith sep (y :: xs)

/-- One aggregate column of `generate_unique_drops_sql`. -/
def uniqueDropsCase (check : String) : String :=
  "SUM(CASE WHEN max_" ++ check ++ " = 0 THEN 1 ELSE 0 END) AS " ++ check

/-- The case statements of `generate_unique_drops_sql`: the loop ranges over
every key of `_conditions_column_mappings`, with no treatment of the
`"Check not found"` values. -/
def uniqueDropsCases (m : List (String × Resolved)) : List String :=
  m.map (fun p => uniqueDropsCase p.1)

/-- The unique-drops query for one grain identifier. -/
def generateUniqueDropsSql (m : List (String × Resolved)) (table : String) : String :=
  "SELECT\n" ++ joinWith ",\n" (uniqueDropsCases m) ++ "\nFROM " ++ table ++ ";"

/-- The OR-joined failure condition of one prior/post-template bucket
(`no_output` then `output` checks). -/
def templateFailCondition (tb : TemplateBuckets) : String :=
  joinWith " OR " ((tb.no_output ++ tb.output).map (fun c => "max_" ++ c ++ " = 0"))

/-- The parenthesized per-template conditions; an empty joined string is
dropped (`if prior_template_condition:`). -/
def templateConditions (ts : List (String × TemplateBuckets)) : List String :=
  ts.filterMap (fun p =>
    if templateFailCondition p.2 = "" then none
    else some ("(" ++ templateFailCondition p.2 ++ ")"))

/-- The conditions shared verbatim by `generate_regain_sql` and
`generate_incremental_drops_sql`: the selected check failed and every base
check held. -/
def baseConditions (check : String) (e : DepEntry) : List String :=
  ("max_" ++ check ++ " = 0") :: e.base.map (fun b => "max_" ++ b ++ " = 1")

/-- The condition list of one incremental-drops case statement. -/
def incrementalConditions (check : String) (e : DepEntry) : List String :=
  baseConditions check e ++
    (if templateConditions e.prior_templates = [] then []
     else [joinWith " AND " (templateConditions e.prior_templates)])

/-- The condition list of one regain case statement: the same construction with
the post-template conditions appended. -/
def regainConditions (check : String) (e : DepEntry) : List String :=
  baseConditions check e ++
    (if templateConditions e.prior_templates = [] then []
     else [joinWith " AND " (templateConditions e.prior_templates)]) ++
    (if templateConditions e.post_templates = [] then []
     else [joinWith " AND " (templateConditions e.post_templates)])

/-- The AND-joined row-selection condition of one incremental-drops case. -/
def incrementalCaseCondition (check : String) (e : DepEntry) : String :=
  joinWith " AND " (incrementalConditions check e)

/-- The AND-joined row-selection condition of one regain case. -/
def regainCaseCondition (check : String) (e : DepEntry) : String :=
  joinWith " AND " (regainConditions check e)

/-- The `SUM(CASE WHEN ... THEN 1 ELSE 0 END) AS check` wrapper shared by the
regain and incremental-drops generators. -/
def sumCaseAs (cond check : String) : String :=
  "\nSUM(CASE WHEN " ++ cond ++ " THEN 1 ELSE 0 END) AS " ++ check

/-- The case statements of `generate_incremental_drops_sql`.  A
`"Check not found"` value gives `none`: the source subscripts the string with
`related_checks['base']`, which raises `TypeError`. -/
def incrementalCases : List (String × Resolved) → Option (List String)
  | [] => some []
  | p :: rest =>
    match p.2 with
    | Resolved.notFound => none
    | Resolved.entry e =>
      (incrementalCases rest).map (fun l => sumCaseAs (incrementalCaseCondition p.1 e) p.1 :: l)

/-- The case statements of `generate_regain_sql`; `none` as above. -/
def regainCases : List (String × Resolved) → Option (List String)
  | [] => some []
  | p :: rest =>
    match p.2 with
    | Resolved.notFound => none
    | Resolved.entry e =>
      (regainCases rest).map (fun l => sumCaseAs (regainCaseCondition p.1 e) p.1 :: l)

/-- The incremental-drops query for one grain identifier. -/
def generateIncrementalDropsSql (m : List (String × Resolved)) (table : String) : Option String :=
  (incrementalCases m).map (fun cs => "SELECT\n" ++ joinWith ",\n" cs ++ "\nFROM " ++ table ++ ";")

/-- The regain query for one grain identifier. -/
def generateRegainSql (m : List (String × Resolved)) (table : String) : Option String :=
  (regainCases m).map (fun cs => "SELECT\n" ++ joinWith ",\n" cs ++ "\nFROM " ++ table ++ ";")

/-- The flattened prior-failure condition of `generate_remaining_sql` (joined
across all prior templates, without per-template parentheses). -/
def remainingPriorFailed (e : DepEntry) : String :=
  joinWith " OR "
    ((e.prior_templates.flatMap (fun p => p.2.no_output ++ p.2.output)).map
      (fun c => "max_" ++ c ++ " = 0"))

/-- One case statement of `generate_remaining_sql`, for the given accumulated
`previous_checks` list. -/
def remainingCase (previous : List String) (check : String) (e : DepEntry) : String :=
  "total_rows - SUM(CASE WHEN " ++
    joinWith " AND " ((previous ++ [check]).map (fun c => "max_" ++ c ++ " = 1")) ++ " " ++
    (if remainingPriorFailed e = "" then "" else " AND (" ++ remainingPriorFailed e ++ ")") ++
    " THEN 1 ELSE 0 END) AS " ++ check

/-- The accumulating loop of `generate_remaining_sql`: yields the case
statements and the final `previous_checks` list; `none` models the `TypeError`
on a `"Check not found"` value. -/
def remainingLoop (previous : List String) :
    List (String × Resolved) → Option (List String × List String)
  | [] => some ([], previous)
  | p :: rest =>
    match p.2 with
    | Resolved.notFound => none
    | Resolved.entry e =>
      (remainingLoop (previous ++ [p.1]) rest).map
        (fun q => (remainingCase previous p.1 e :: q.1, q.2))

/-- The column list of the outer SELECT of the remaining query: the final
`previous_checks` list, i.e. the order in which the checks were applied. -/
def remainingAppliedOrder (m : List (String × Resolved)) : Option (List String) :=
  (remainingLoop [] m).map (fun q => q.2)

/-- The remaining-population query for one grain identifier. -/
def generateRemainingSql (m : List (String × Resolved)) (table : String) : Option String :=
  (remainingLoop [] m).map (fun q =>
    "\n                SELECT " ++ joinWith ", " q.2 ++
      "\n                FROM (" ++
      ("SELECT\n" ++ joinWith ",\n" ("COUNT(*) AS total_rows" :: q.1) ++
        "\nFROM " ++ table ++ ";") ++ ") z \n            ")

theorem joinWith_append_single (sep y : String) :
    ∀ xs : List String, xs ≠ [] → joinWith sep (xs ++ [y]) = joinWith sep xs ++ sep ++ y := by
  intro xs
  induction xs with
  | nil => intro hne; exact absurd rfl hne
  | cons x xs ih =>
    intro _
    cases xs with
    | nil => rfl
    | cons x2 xs2 =>
      have hstep : joinWith sep ((x :: x2 :: xs2) ++ [y]) =
          x ++ sep ++ joinWith sep ((x2 :: xs2) ++ [y]) := rfl
      rw [hstep, ih (by simp)]
      show x ++ sep ++ (joinWith sep (x2 :: xs2) ++ sep ++ y) = _
      rw [joinWith]
      rw [← String.append_assoc, ← String.append_assoc]

/-! ### Claim C7: regain condition versus incremental-drop condition -/

/-- Claim C7: for every check entry, the row-selection condition of the regain
case statement equals the condition of the incremental-drop case statement,
conjoined — whenever there is at least one nonempty post-template bucket —
with the AND-joined per-bucket requirements that some check of the bucket
(`no_output` or `output`) failed; with no post-template conditions the two
strings coincide exactly. -/
theorem claim_C7 (check : String) (e : DepEntry) :
    regainCaseCondition check e =
      incrementalCaseCondition check e ++
        (if templateConditions e.post_templates = [] then ""
         else " AND " ++ joinWith " AND " (templateConditions e.post_templates)) := by
  unfold regainCaseCondition incrementalCaseCondition regainConditions incrementalConditions
  by_cases hpost : templateConditions e.post_templates = []
  · rw [if_pos hpost, if_pos hpost]
    rw [List.append_nil]
    show _ = _ ++ ""
    rw [String.append_empty]
  · rw [if_neg hpost, if_neg hpost]
    have hne : baseConditions check e ++
        (if templateConditions e.prior_templates = [] then []
         else [joinWith " AND " (templateConditions e.prior_templates)]) ≠ [] := by
      simp [baseConditions]
    rw [joinWith_append_single " AND "
      (joinWith " AND " (templateConditions e.post_templates)) _ hne]
    rw [String.append_assoc]

/-! ### Claim C2: order of check application in the remaining query -/

theorem remainingLoop_applied_order :
    ∀ (m : List (String × Resolved)) (previous cs prev : List String),
      remainingLoop previous m = some (cs, prev) → prev = previous ++ m.map Prod.fst := by
  intro m
  induction m with
  | nil =>
    intro previous cs prev hloop
    obtain ⟨h1, h2⟩ := Prod.mk.injEq .. ▸ Option.some.inj hloop
    simp [← h2]
  | cons p rest ih =>
    intro previous cs prev hloop
    unfold remainingLoop at hloop
    rcases hp : p.2 with _ | e <;> rw [hp] at hloop
    · cases hloop
    · rcases hrec : remainingLoop (previous ++ [p.1]) rest with _ | q <;>
        rw [hrec] at hloop
      · cases hloop
      · obtain ⟨-, h2⟩ := Prod.mk.injEq .. ▸ Option.some.inj hloop
        have := ih (previous ++ [p.1]) q.1 q.2 (by rw [hrec])
        rw [← h2, this]
        simp

/-- Sample hierarchy for the remaining-order analysis: the baseline channel
with two checks. -/
def h0 : Hierarchy := [("main", [("BA", [check0, check0])])]

/-- Claim C2 fails on the code: the checks of the remaining query are applied
in the iteration order of the Python `set` named `column_names`, which is
hash-dependent and admits, e.g., `[main_BA_2, main_BA_1]` — a permutation of
the assigned names that differs from the hierarchy iteration order
`[main_BA_1, main_BA_2]`.  The accumulated `previous_checks` projection (the
outer SELECT of the query) then lists the checks in that set order. -/
theorem claim_C2_code_bug :
    allColumnNames h0 = ["main_BA_1", "main_BA_2"]
    ∧ ["main_BA_2", "main_BA_1"].Perm ((allColumnNames h0).dedup)
    ∧ ((prepareConditions h0 ["main_BA_2", "main_BA_1"]).bind remainingAppliedOrder) =
        some ["main_BA_2", "main_BA_1"]
    ∧ ["main_BA_2", "main_BA_1"] ≠ allColumnNames h0 := by
  decide

/-! ### Claim C3: the four families versus the dependency map -/

theorem findCheckLocation_isSome {h : Hierarchy} {cn : String}
    (hch : ∀ c ∈ h, c.1 ≠ "") (hcn : cn ∈ allColumnNames h) :
    ∃ loc, findCheckLocation h cn = some loc := by
  rcases hloc : findCheckLocation h cn with _ | loc
  · exfalso
    rw [findCheckLocation, List.findSome?_eq_none_iff] at hloc
    obtain ⟨c, hc, hrest⟩ := List.mem_flatMap.mp hcn
    obtain ⟨t, ht, hname⟩ := List.mem_flatMap.mp hrest
    have := hloc c hc
    rw [if_neg (hch c hc)] at this
    have hfind := Option.map_eq_none.mp this
    rw [List.find?_eq_none] at hfind
    exact hfind t ht (by simpa using hname)
  · exact ⟨loc, rfl⟩

theorem resolveEntry_is_entry {h : Hierarchy} {cn : String} {mainTs : List Template}
    (hmain : channelTemplates? h "main" = some mainTs)
    (hch : ∀ c ∈ h, c.1 ≠ "") (hcn : cn ∈ allColumnNames h) :
    ∃ e, resolveEntry h cn = some (Resolved.entry e) := by
  obtain ⟨⟨selCh, selT⟩, hloc⟩ := findCheckLocation_isSome hch hcn
  exact ⟨_, resolveEntry_found hloc hmain⟩

theorem prepareConditions_mem {h : Hierarchy} :
    ∀ {order : List String} {m : List (String × Resolved)},
      prepareConditions h order = some m →
        ∀ p ∈ m, resolveEntry h p.1 = some p.2 ∧ p.1 ∈ order := by
  intro order
  induction order with
  | nil =>
    intro m hm p hp
    cases Option.some.inj hm
    cases hp
  | cons cn rest ih =>
    intro m hm p hp
    unfold prepareConditions at hm
    rcases hr : resolveEntry h cn with _ | r <;> rw [hr] at hm
    · cases hm
    · rcases hrest : prepareConditions h rest with _ | m' <;> rw [hrest] at hm
      · cases hm
      · cases Option.some.inj hm
        rcases List.mem_cons.mp hp with rfl | hp'
        · exact ⟨hr, List.mem_cons_self _ _⟩
        · obtain ⟨h1, h2⟩ := ih hrest p hp'
          exact ⟨h1, List.mem_cons_of_mem _ h2⟩

theorem incrementalCases_of_entries :
    ∀ {m : List (String × Resolved)},
      (∀ p ∈ m, p.2 ≠ Resolved.notFound) →
        ∃ cs, incrementalCases m = some cs ∧ cs.length = m.length := by
  intro m
  induction m with
  | nil => intro _; exact ⟨[], rfl, rfl⟩
  | cons p rest ih =>
    intro hall
    obtain ⟨cs, hcs, hlen⟩ := ih (fun q hq => hall q (List.mem_cons_of_mem _ hq))
    rcases hp : p.2 with _ | e
    · exact absurd hp (hall p (List.mem_cons_self _ _))
    · refine ⟨sumCaseAs (incrementalCaseCondition p.1 e) p.1 :: cs, ?_, by simp [hlen]⟩
      unfold incrementalCases
      rw [hp, hcs]
      rfl

theorem regainCases_of_entries :
    ∀ {m : List (String × Resolved)},
      (∀ p ∈ m, p.2 ≠ Resolved.notFound) →
        ∃ cs, regainCases m = some cs ∧ cs.length = m.length := by
  intro m
  induction m with
  | nil => intro _; exact ⟨[], rfl, rfl⟩
  | cons p rest ih =>
    intro hall
    obtain ⟨cs, hcs, hlen⟩ := ih (fun q hq => hall q (List.mem_cons_of_mem _ hq))
    rcases hp : p.2 with _ | e
    · exact absurd hp (hall p (List.mem_cons_self _ _))
    · refine ⟨sumCaseAs (regainCaseCondition p.1 e) p.1 :: cs, ?_, by simp [hlen]⟩
      unfold regainCases
      rw [hp, hcs]
      rfl

theorem remainingLoop_of_entries :
    ∀ {m : List (String × Resolved)} (previous : List String),
      (∀ p ∈ m, p.2 ≠ Resolved.notFound) →
        ∃ cs, remainingLoop previous m = some (cs, previous ++ m.map Prod.fst) ∧
          cs.length = m.length := by
  intro m
  induction m with
  | nil => intro previous _; exact ⟨[], by simp [remainingLoop], rfl⟩
  | cons p rest ih =>
    intro previous hall
    obtain ⟨cs, hcs, hlen⟩ :=
      ih (previous ++ [p.1]) (fun q hq => hall q (List.mem_cons_of_mem _ hq))
    rcases hp : p.2 with _ | e
    · exact absurd hp (hall p (List.mem_cons_self _ _))
    · refine ⟨remainingCase previous p.1 e :: cs, ?_, by simp [hlen]⟩
      unfold remainingLoop
      rw [hp, hcs]
      simp

/-- Claim C3 as amended: for every hierarchy whose channel names are nonempty
and that contains the baseline channel, every element of the `column_names` set
resolves to a real dependency entry (no `"Check not found"` value ever arises),
and each of the four query families emits exactly one aggregate case statement
per key of the dependency map, in key order. -/
theorem claim_C3 (h : Hierarchy) (order : List String) (mainTs : List Template)
    (hmain : channelTemplates? h "main" = some mainTs)
    (hch : ∀ c ∈ h, c.1 ≠ "")
    (horder : ∀ cn ∈ order, cn ∈ allColumnNames h) :
    ∃ m, prepareConditions h order = some m ∧ m.map Prod.fst = order ∧
      (∀ p ∈ m, p.2 ≠ Resolved.notFound) ∧
      (uniqueDropsCases m).length = order.length ∧
      (∃ ci, incrementalCases m = some ci ∧ ci.length = order.length) ∧
      (∃ cr, regainCases m = some cr ∧ cr.length = order.length) ∧
      (∃ cs, remainingLoop [] m = some (cs, order) ∧ cs.length = order.length) := by
  obtain ⟨m, hm, hk⟩ := prepareConditions_keys hmain order
  have hmlen : m.length = order.length := by
    rw [← hk, List.length_map]
  have hall : ∀ p ∈ m, p.2 ≠ Resolved.notFound := by
    intro p hp
    obtain ⟨hres, hord⟩ := prepareConditions_mem hm p hp
    obtain ⟨e, he⟩ := resolveEntry_is_entry hmain hch (horder p.1 hord)
    rw [he] at hres
    rw [← Option.some.inj hres]
    intro hcontra
    cases hcontra
  refine ⟨m, hm, hk, hall, ?_, ?_, ?_, ?_⟩
  · rw [uniqueDropsCases, List.length_map, hmlen]
  · obtain ⟨ci, hci, hl⟩ := incrementalCases_of_entries hall
    exact ⟨ci, hci, by rw [hl, hmlen]⟩
  · obtain ⟨cr, hcr, hl⟩ := regainCases_of_entries hall
    exact ⟨cr, hcr, by rw [hl, hmlen]⟩
  · obtain ⟨cs, hcs, hl⟩ := remainingLoop_of_entries [] hall
    rw [List.nil_append, hk] at hcs
    exact ⟨cs, hcs, by rw [hl, hmlen]⟩

/-- Witness for the amended claim C3 at the sample hierarchy. -/
theorem claim_C3_witness :
    ∃ m, prepareConditions h1 (allColumnNames h1) = some m ∧
      m.map Prod.fst = allColumnNames h1 ∧
      (∀ p ∈ m, p.2 ≠ Resolved.notFound) ∧
      (uniqueDropsCases m).length = (allColumnNames h1).length ∧
      (∃ ci, incrementalCases m = some ci ∧ ci.length = (allColumnNames h1).length) ∧
      (∃ cr, regainCases m = some cr ∧ cr.length = (allColumnNames h1).length) ∧
      (∃ cs, remainingLoop [] m = some (cs, allColumnNames h1) ∧
        cs.length = (allColumnNames h1).length) :=
  claim_C3 h1 (allColumnNames h1) [("BA", [check0])] (by decide) (by decide) (by decide)

/-- Hierarchy with a channel whose name is the empty string: its check is
located by no truthy channel, so resolution yields `"Check not found"`. -/
def hEmptyChannel : Hierarchy :=
  [("main", [("BA", [check0])]), ("", [("BA", [check0])])]

/-- Counterexample to claim C3 as stated: in `hEmptyChannel` the check `_BA_1`
resolves to `"Check not found"`, yet `generate_unique_drops_sql` still emits an
aggregate column (`... AS _BA_1`) for it — its column name appears in the
generated query text — while the incremental, regain and remaining generators
crash on the entry (`none`) instead of skipping it. -/
theorem claim_C3_counterexample :
    resolveEntry hEmptyChannel "_BA_1" = some Resolved.notFound
    ∧ (prepareConditions hEmptyChannel (allColumnNames hEmptyChannel)).map uniqueDropsCases =
        some ["SUM(CASE WHEN max_main_BA_1 = 0 THEN 1 ELSE 0 END) AS main_BA_1",
              "SUM(CASE WHEN max__BA_1 = 0 THEN 1 ELSE 0 END) AS _BA_1"]
    ∧ (prepareConditions hEmptyChannel (allColumnNames hEmptyChannel)).bind
        (fun m => incrementalCases m) = none
    ∧ (prepareConditions hEmptyChannel (allColumnNames hEmptyChannel)).bind
        (fun m => regainCases m) = none
    ∧ (prepareConditions hEmptyChannel (allColumnNames hEmptyChannel)).bind
        (fun m => remainingLoop [] m) = none := by
  decide

/-! ### Report assembly (`waterfall/waterfall.py`, `_step3_create_dataframes`) -/

/-- A pandas axis label.  Python is dynamically typed: an index whose labels
are strings can still be probed with an integer key, and `.loc` raises
`KeyError` when the key matches no label. -/
inductive PdLabel where
  | str : String → PdLabel
  | int : Int → PdLabel
deriving Repr, DecidableEq

/-- One element of `_query_results[identifier]`: the one-row frame built by
`to_pandas(query)` followed by `set_index('Index')` — its index is the single
family row label (such as `identifier ++ " drop increm"`) and it has one
integer-valued column per check name. -/
structure FamilyRow where
  label : String
  cells : List (String × Int)
deriving Repr, DecidableEq

/-- The `_column_names` row labels of `Waterfall.__init__`, after
`.format(identifier=identifier)`. -/
def uniqueDropsLabel (identifier : String) : String := identifier ++ " drop if only this drop"

/-- Row label of the incremental-drops family for one identifier. -/
def incremDropsLabel (identifier : String) : String := identifier ++ " drop increm"

/-- Row label of the derived cumulative-drops column for one identifier. -/
def cumulDropsLabel (identifier : String) : String := identifier ++ " drop cumul"

/-- Row label of the regain family for one identifier. -/
def regainLabel (identifier : String) : String := identifier ++ " regain if no scrub"

/-- Row label of the remaining family for one identifier. -/
def remainingLabel (identifier : String) : String := identifier ++ " remaining"

/-- The frame `pd.concat(dfs, axis=1).transpose()` of
`_step3_create_dataframes`.  `concat` along columns of one-row frames with
four distinct index labels aligns on the index: the result has four rows and
the blocks' check-name columns side by side, each block holding values only in
its own row (`NaN`, modelled as `none`, elsewhere).  Transposing gives one row
per original column — so the index consists of the check-name strings,
repeated once per family block — and one column per family row label. -/
def concatTranspose (dfs : List FamilyRow) :
    List (PdLabel × List (String × Option Int)) :=
  dfs.flatMap (fun df =>
    df.cells.map (fun cell =>
      (PdLabel.str cell.1,
        dfs.map (fun df2 =>
          (df2.label, if df2.label = df.label then some cell.2 else none)))))

/-- Pandas `df.loc[rowKey, colLabel]` on the transposed frame.  The outer
`none` is the `KeyError` raised when no index label equals the key (or the
column is absent); the inner `Option Int` is the cell, `none` for `NaN`. -/
def locCell (rows : List (PdLabel × List (String × Option Int)))
    (rowKey : PdLabel) (col : String) : Option (Option Int) :=
  (rows.find? (fun r => r.1 == rowKey)).bind (fun r => r.2.lookup col)

/-- The per-identifier body of `_step3_create_dataframes`:
`df = pd.concat(dfs, axis=1).transpose()`, then
`self._starting_population = df.loc[0, increm_drop] + df.loc[0, remaining]`,
then `df[cumul_drop] = self._starting_population - df[remaining]` (returned as
the cumulative column: row label with its derived cell).  The outer `none`
models the uncaught `KeyError` from a failed `.loc` lookup; `NaN` cells
propagate through the arithmetic as `none` values. -/
def step3ForGrain (dfs : List FamilyRow) (il rl : String) :
    Option (List (PdLabel × Option Int)) :=
  match locCell (concatTranspose dfs) (PdLabel.int 0) il,
      locCell (concatTranspose dfs) (PdLabel.int 0) rl with
  | some iv, some rv =>
    some ((concatTranspose dfs).map (fun r =>
      (r.1, (iv.bind (fun i0 => rv.map (fun r0 => i0 + r0))).bind
        (fun s => ((r.2.lookup rl).getD none).map (fun v => s - v)))))
  | _, _ => none

/-- The loop of `_step3_create_dataframes` over `_query_results`.  The method
as committed can never run at all: the module fails to import (the `import`
statements placed under a decorator at lines 258-260 are a syntax error), and
its parenless `@call_logger` decoration binds the method to the inner
`decorator` closure, whose call returns a wrapper without executing the body.
This definition embeds the body the source writes. -/
def step3CreateDataframes (queryResults : List (String × List FamilyRow)) :
    Option (List (String × List (PdLabel × Option Int))) :=
  queryResults.mapM (fun p =>
    (step3ForGrain p.2 (incremDropsLabel p.1) (remainingLabel p.1)).map
      (fun cs => (p.1, cs)))

/-- Every index label of the transposed frame is a check-name string, never an
integer, so the starting-population lookup `df.loc[0, ...]` always raises
`KeyError`. -/
theorem step3ForGrain_keyError (dfs : List FamilyRow) (il rl : String) :
    step3ForGrain dfs il rl = none := by
  have hloc : ∀ col, locCell (concatTranspose dfs) (PdLabel.int 0) col = none := by
    intro col
    unfold locCell
    have hfind : (concatTranspose dfs).find? (fun r => r.1 == PdLabel.int 0) = none := by
      rw [List.find?_eq_none]
      intro r hr
      unfold concatTranspose at hr
      obtain ⟨df, hdf, hr2⟩ := List.mem_flatMap.mp hr
      obtain ⟨cell, hcell, hr3⟩ := List.mem_map.mp hr2
      rw [← hr3]
      simp
    rw [hfind]
    rfl
  unfold step3ForGrain
  rw [hloc il, hloc rl]

/-- The four result rows of one grain (`identifier` `"id1"`, checks
`main_BA_1` and `main_BA_2`), in the order `_step2_analyze_eligibility` saves
them: unique drops, incremental drops, regain, remaining. -/
def grainRows8 : List FamilyRow :=
  [{ label := uniqueDropsLabel "id1", cells := [("main_BA_1", 3), ("main_BA_2", 5)] },
   { label := incremDropsLabel "id1", cells := [("main_BA_1", 10), ("main_BA_2", 4)] },
   { label := regainLabel "id1", cells := [("main_BA_1", 2), ("main_BA_2", 1)] },
   { label := remainingLabel "id1", cells := [("main_BA_1", 90), ("main_BA_2", 86)] }]

/-- Claim C8 describes the intended derivation, but the code never performs
it: the transposed frame is indexed by the check-name strings (shown
concretely), so `df.loc[0, increm_drop]` raises `KeyError` for every input of
the real shape — before even reaching the cumulative subtraction — and the
method itself is unreachable (module syntax error at lines 258-260, parenless
`@call_logger` decoration).  Evaluated at a concrete grain's four result
rows. -/
theorem claim_C8_code_bug :
    (∀ (dfs : List FamilyRow) (il rl : String), step3ForGrain dfs il rl = none)
    ∧ (concatTranspose grainRows8).map Prod.fst =
        [PdLabel.str "main_BA_1", PdLabel.str "main_BA_2",
         PdLabel.str "main_BA_1", PdLabel.str "main_BA_2",
         PdLabel.str "main_BA_1", PdLabel.str "main_BA_2",
         PdLabel.str "main_BA_1", PdLabel.str "main_BA_2"]
    ∧ locCell (concatTranspose grainRows8) (PdLabel.int 0) (incremDropsLabel "id1") = none
    ∧ step3CreateDataframes [("id1", grainRows8)] = none :=
  ⟨step3ForGrain_keyError, by decide, by decide, by decide⟩

/-! ### Unique-identifier parsing and validation
(`construct_sql.py` `_parse_unique_identifiers`,
`validations/construct_sql.py` `validate_unique_identifiers`) -/

/-- Python `s.split(sep)` for a one-character separator, on character lists:
`"".split('.') == ['']` and separators produce empty groups. -/
def splitOnChar (sep : Char) : List Char → List (List Char)
  | [] => [[]]
  | c :: rest =>
    if c = sep then [] :: splitOnChar sep rest
    else
      match splitOnChar sep rest with
      | [] => [[c]]
      | g :: gs => (c :: g) :: gs

/-- Python `s.split(sep)` on strings. -/
def splitString (sep : Char) (s : String) : List String :=
  (splitOnChar sep s.data).map (fun l => String.mk l)

/-- Python `s.strip()`: leading and trailing whitespace removed. -/
def stripString (s : String) : String :=
  String.mk (((s.data.dropWhile Char.isWhitespace).reverse.dropWhile Char.isWhitespace).reverse)

/-- The parsed unique-identifier structure `_parsed_unique_identifiers`; the
Python sets are modelled as insertion-ordered deduplicated lists. -/
structure ParsedUniqueIdentifiers where
  without_aliases : List String
  with_aliases : List String
  original_without_aliases : List String
deriving Repr, DecidableEq

/-- Python `part.split('.')[1]`: `none` models the uncaught `IndexError` when
the part has no `.` separator. -/
def partColumn? (part : String) : Option String :=
  (splitString '.' part).get? 1

/-- Python `alias, column = part.split('.')`: `none` models the uncaught
`ValueError` when the split does not yield exactly two components. -/
def partAliasColumn? (part : String) : Option (String × String) :=
  match splitString '.' part with
  | [al, col] => some (al, col)
  | _ => none

/-- Processing of one identifier string inside `_parse_unique_identifiers`:
split on commas, strip, collect the alias-free composite, then add each part's
column and the part itself to the accumulating sets. -/
def parseOneIdentifier (st : List String × List String × List String) (identifier : String) :
    Option (List String × List String × List String) :=
  let parts := (splitString ',' identifier).map stripString
  match parts.mapM partColumn? with
  | none => none
  | some originalParts =>
    parts.foldlM (fun st2 part =>
      match partAliasColumn? part with
      | none => none
      | some (al, col) =>
        let _ := al
        some (insertFresh st2.1 col, insertFresh st2.2.1 part, st2.2.2))
      (st.1, st.2.1, st.2.2 ++ [joinWith ", " originalParts])

/-- The `_parse_unique_identifiers` method; `none` models an uncaught
exception.  The final `original_without_aliases` list is deduplicated
(`set(original_without_aliases)`). -/
def parseUniqueIdentifiers (ids : List String) : Option ParsedUniqueIdentifiers :=
  (ids.foldlM parseOneIdentifier ([], [], [])).map (fun st =>
    { without_aliases := st.1
      with_aliases := st.2.1
      original_without_aliases := st.2.2.foldl insertFresh [] })

/-- The `unique_identifiers` property setter of `SQLConstructor`: it assigns
the instance attribute `self._unique_identifiers` and parses.  The
`ConstructSQLMeta.__setattr__` hook intercepts only class-attribute writes
(it is defined on the metaclass), so `validate_unique_identifiers` is never
invoked on this path. -/
def setUniqueIdentifiers (ids : List String) : Option ParsedUniqueIdentifiers :=
  parseUniqueIdentifiers ids

/-- One table declaration; the field `tableAlias` embeds the Python dict key
`alias`. -/
structure TableDecl where
  table_name : String
  join_type : String
  tableAlias : String
  where_conditions : String
  join_conditions : String
deriving Repr, DecidableEq

/-- The `_extract_table_aliases` helper: insertion-ordered set of aliases. -/
def extractTableAliases (tables : List TableDecl) : List String :=
  tables.foldl (fun acc t => insertFresh acc t.tableAlias) []

/-- The regular expression `^[a-z]+\.[a-zA-Z0-9_]+$` of
`validate_unique_identifiers`. -/
def matchesIdentPattern (s : String) : Bool :=
  match splitString '.' s with
  | [a, b] =>
    (a != "") && a.data.all (fun c => 'a' ≤ c && c ≤ 'z') &&
    (b != "") && b.data.all (fun c => c.isAlpha || c.isDigit || c = '_')
  | _ => false

/-- Python dict assignment `columns_seen[column] = alias`. -/
def updateSeen (seen : List (String × String)) (col al : String) : List (String × String) :=
  if (seen.lookup col).isSome then
    seen.map (fun p => if p.1 = col then (col, al) else p)
  else seen ++ [(col, al)]

/-- Validation of a single identifier part, threading `columns_seen`;
`Except.error` carries the `ValueError` message. -/
def checkIdentifierPart (tableAliases : List String) (seen : List (String × String))
    (part : String) : Except String (List (String × String)) :=
  if ¬ matchesIdentPattern part then
    Except.error ("Invalid identifier format: " ++ part)
  else
    let al := ((splitString '.' part).get? 0).getD ""
    let col := ((splitString '.' part).get? 1).getD ""
    if al ∉ tableAliases then
      Except.error ("Alias '" ++ al ++ "' not present in _table_aliases.")
    else
      match seen.lookup col with
      | some al0 =>
        if al0 ≠ al then Except.error ("Column '" ++ col ++ "' is used with multiple aliases.")
        else Except.ok (updateSeen seen col al)
      | none => Except.ok (updateSeen seen col al)

/-- The `validate_unique_identifiers` method of `ConstructSQLMeta`.  The source
iterates `set(value)`; that set's iteration order is modelled by the order of
the given list. -/
def validateUniqueIdentifiers (tables : List TableDecl) (ids : List String) :
    Except String Unit :=
  (ids.foldlM (fun seen identifier =>
      ((splitString ',' identifier).map stripString).foldlM
        (checkIdentifierPart (extractTableAliases tables)) seen)
    ([] : List (String × String))).map (fun _ => ())

/-! ### Claim C10: partiality of identifier parsing -/

/-- Claim C10: parsing the unique-identifier specs is partial — an identifier
part with no `.` separator makes `_parse_unique_identifiers` raise an uncaught
`IndexError` from `part.split('.')[1]` (modelled by `none`) instead of
returning a parsed result or a structured error. -/
theorem claim_C10 :
    partColumn? "id1" = none ∧ parseUniqueIdentifiers ["id1"] = none :=
  ⟨rfl, rfl⟩

/-! ### Claim C9: validation of unique-identifier specs -/

/-- The per-grain query loop shared by the four generators: one query per
`original_without_aliases` identifier, against
`self._backend_tables.get(identifier)` (a missing key yields Python `None`,
rendered as `"None"` in the f-string). -/
def generateUniqueDropsQueries (parsed : ParsedUniqueIdentifiers)
    (backendTables : List (String × String)) (m : List (String × Resolved)) :
    List (String × String) :=
  parsed.original_without_aliases.map (fun ident =>
    (ident, generateUniqueDropsSql m ((backendTables.lookup ident).getD "None")))

/-- Table declarations for the C9 scenario: aliases `a` and `b`. -/
def tables9 : List TableDecl :=
  [{ table_name := "db.t1", join_type := "FROM", tableAlias := "a",
     where_conditions := "", join_conditions := "" },
   { table_name := "db.t2", join_type := "LEFT JOIN", tableAlias := "b",
     where_conditions := "", join_conditions := "a.k = b.k" }]

/-- Unique-identifier specs for the C9 scenario: alias `c` is not declared. -/
def ids9 : List String := ["a.id1, b.id2", "c.id3"]

/-- The value `_parse_unique_identifiers` produces for `ids9`. -/
def parsed9 : ParsedUniqueIdentifiers :=
  { without_aliases := ["id1", "id2", "id3"]
    with_aliases := ["a.id1", "b.id2", "c.id3"]
    original_without_aliases := ["id1, id2", "id3"] }

/-- The dependency map of the sample hierarchy `h1`, used to show that query
generation proceeds. -/
def mapH1 : List (String × Resolved) :=
  (prepareConditions h1 (allColumnNames h1)).getD []

/-- Claim C9 fails on the code: `validate_unique_identifiers` would reject the
spec whose alias `c` is not declared, but that validator lives on the metaclass
`ConstructSQLMeta.__setattr__`, which fires only for class-attribute writes;
the instance-level property setter (`setUniqueIdentifiers`) only parses, so no
error is raised and the per-grain queries are generated for the invalid spec. -/
theorem claim_C9_code_bug :
    validateUniqueIdentifiers tables9 ids9 =
      Except.error "Alias 'c' not present in _table_aliases."
    ∧ setUniqueIdentifiers ids9 = some parsed9
    ∧ (generateUniqueDropsQueries parsed9 [("id1, id2", "tbl_1"), ("id3", "tbl_2")] mapH1).map
        Prod.fst = ["id1, id2", "id3"] :=
  ⟨rfl, rfl, rfl⟩

/-! ### Claim C4: the naming convention and its collisions -/

/-- The output-count rule of `validate_conditions` for one non-baseline
channel: `output_true_count` accumulates across the channel's templates; after
each non-`BA` template the count must not exceed one, and when it is exactly
one the current template's last check must be the output check.  The source
would raise `IndexError` on `sublist[-1]` for an empty template with a pending
count; that is modelled as rejection. -/
def validateChannelTemplates : Nat → List Template → Bool
  | _, [] => true
  | count, t :: rest =>
    let c2 := count + (t.2.filter (fun ch => ch.output)).length
    if t.1 != "BA" then
      if c2 > 1 then false
      else if c2 == 1 && !((t.2.getLast?.map Check.output).getD false) then false
      else validateChannelTemplates c2 rest
    else validateChannelTemplates c2 rest

/-- The `validate_conditions` validator of `EligibleMeta` (the structural/type
checks that the typed embedding makes automatic are omitted): the hierarchy
must contain `main`; `main` may hold only the template `BA`, whose checks must
not be outputs; every other channel must satisfy the output-count rule. -/
def validateConditions (h : Hierarchy) : Bool :=
  (h.map Prod.fst).contains "main" &&
  h.all (fun c =>
    if c.1 == "main" then
      (c.2.map Prod.fst == ["BA"]) && c.2.all (fun t => t.2.all (fun ch => !ch.output))
    else validateChannelTemplates 0 c.2)

/-- A well-formed hierarchy (it passes `validate_conditions`) on which the
naming convention collides: channel `a` with template `b_c` and channel `a_b`
with template `c` both produce the column name `a_b_c_1`. -/
def hUnderscore : Hierarchy :=
  [("main", [("BA", [check0])]),
   ("a", [("b_c", [check0])]),
   ("a_b", [("c", [check0])])]

/-- Counterexample to claim C4: `hUnderscore` passes hierarchy validation, yet
the assigned column names are not pairwise distinct. -/
theorem claim_C4_counterexample :
    validateConditions hUnderscore = true
    ∧ allColumnNames hUnderscore = ["main_BA_1", "a_b_c_1", "a_b_c_1"]
    ∧ ¬ (allColumnNames hUnderscore).Nodup := by
  decide

/-- Python `int` rendering: the numeric value of a decimal digit character. -/
def digitVal (c : Char) : Nat := c.toNat - '0'.toNat

/-- The value denoted by a decimal character list, most significant first. -/
def charsVal : List Char → Nat
  | [] => 0
  | c :: cs => digitVal c * 10 ^ cs.length + charsVal cs

theorem digitVal_digitChar {m : Nat} (hm : m < 10) : digitVal (Nat.digitChar m) = m := by
  interval_cases m <;> rfl

theorem digitChar_ne_underscore {m : Nat} (hm : m < 10) : Nat.digitChar m ≠ '_' := by
  interval_cases m <;> decide

theorem toDigitsCore_val :
    ∀ (f n : Nat) (l : List Char), n < 10 ^ f →
      charsVal (Nat.toDigitsCore 10 f n l) = n * 10 ^ l.length + charsVal l := by
  intro f
  induction f with
  | zero =>
    intro n l hn
    have hn0 : n = 0 := Nat.lt_one_iff.mp hn
    subst hn0
    simp [Nat.toDigitsCore]
  | succ f ih =>
    intro n l hn
    show charsVal (Nat.toDigitsCore 10 (f + 1) n l) = _
    rw [Nat.toDigitsCore]
    by_cases hdiv : n / 10 = 0
    · rw [if_pos hdiv]
      have hmod : n % 10 = n := by omega
      rw [charsVal, digitVal_digitChar (Nat.mod_lt n (by norm_num)), hmod]
    · rw [if_neg hdiv]
      have hlt : n / 10 < 10 ^ f := by
        rw [Nat.div_lt_iff_lt_mul (by norm_num)]
        rw [pow_succ] at hn
        exact hn
      rw [ih (n / 10) (Nat.digitChar (n % 10) :: l) hlt]
      rw [charsVal, digitVal_digitChar (Nat.mod_lt n (by norm_num))]
      have hsplit : n = 10 * (n / 10) + n % 10 := (Nat.div_add_mod n 10).symm
      rw [List.length_cons, pow_succ]
      conv => rhs; rw [hsplit]
      ring

theorem toDigitsCore_no_underscore :
    ∀ (f n : Nat) (l : List Char), '_' ∉ l → '_' ∉ Nat.toDigitsCore 10 f n l := by
  intro f
  induction f with
  | zero => intro n l hl; exact hl
  | succ f ih =>
    intro n l hl
    have hcons : '_' ∉ Nat.digitChar (n % 10) :: l := by
      intro hmem
      rcases List.mem_cons.mp hmem with heq | hmem2
      · exact digitChar_ne_underscore (Nat.mod_lt n (by norm_num)) heq.symm
      · exact hl hmem2
    rw [Nat.toDigitsCore]
    by_cases hdiv : n / 10 = 0
    · rw [if_pos hdiv]; exact hcons
    · rw [if_neg hdiv]; exact ih (n / 10) _ hcons

theorem repr_data_eq (n : Nat) : (Nat.repr n).data = Nat.toDigitsCore 10 (n + 1) n [] := rfl

theorem lt_ten_pow_succ (n : Nat) : n < 10 ^ (n + 1) := by
  calc n < 2 ^ n := Nat.lt_two_pow n
    _ ≤ 10 ^ n := Nat.pow_le_pow_left (by norm_num) n
    _ ≤ 10 ^ (n + 1) := Nat.pow_le_pow_right (by norm_num) (Nat.le_succ n)

theorem charsVal_repr (n : Nat) : charsVal (Nat.repr n).data = n := by
  rw [repr_data_eq, toDigitsCore_val (n + 1) n [] (lt_ten_pow_succ n)]
  simp [charsVal]

theorem repr_data_inj {n1 n2 : Nat} (h : (Nat.repr n1).data = (Nat.repr n2).data) : n1 = n2 := by
  have := congrArg charsVal h
  rwa [charsVal_repr, charsVal_repr] at this

theorem repr_no_underscore (n : Nat) : '_' ∉ (Nat.repr n).data := by
  rw [repr_data_eq]
  exact toDigitsCore_no_underscore (n + 1) n [] (by simp)

theorem underscore_split_inj :
    ∀ (a1 : List Char) {a2 r1 r2 : List Char}, '_' ∉ a1 → '_' ∉ a2 →
      a1 ++ '_' :: r1 = a2 ++ '_' :: r2 → a1 = a2 ∧ r1 = r2 := by
  intro a1
  induction a1 with
  | nil =>
    intro a2 r1 r2 _ h2 heq
    cases a2 with
    | nil => exact ⟨rfl, (List.cons.inj heq).2⟩
    | cons c a2' =>
      exfalso
      apply h2
      rw [← (List.cons.inj heq).1]
      exact List.mem_cons_self _ _
  | cons c a1' ih =>
    intro a2 r1 r2 h1 h2 heq
    cases a2 with
    | nil =>
      exfalso
      apply h1
      rw [(List.cons.inj heq).1]
      exact List.mem_cons_self _ _
    | cons d a2' =>
      obtain ⟨hcd, htail⟩ := List.cons.inj heq
      obtain ⟨ha, hr⟩ :=
        ih (fun hm => h1 (List.mem_cons_of_mem _ hm)) (fun hm => h2 (List.mem_cons_of_mem _ hm))
          htail
      exact ⟨by rw [hcd, ha], hr⟩

theorem columnName_data (ch t : String) (n : Nat) :
    (columnName ch t n).data = ch.data ++ '_' :: (t.data ++ '_' :: (Nat.repr n).data) := by
  show (ch ++ "_" ++ t ++ "_" ++ toString n).data = _
  rw [String.data_append, String.data_append, String.data_append, String.data_append]
  simp
  rfl

theorem columnName_inj {ch1 t1 ch2 t2 : String} {n1 n2 : Nat}
    (hc1 : '_' ∉ ch1.data) (hc2 : '_' ∉ ch2.data)
    (ht1 : '_' ∉ t1.data) (ht2 : '_' ∉ t2.data)
    (heq : columnName ch1 t1 n1 = columnName ch2 t2 n2) :
    ch1 = ch2 ∧ t1 = t2 ∧ n1 = n2 := by
  have hdata := congrArg String.data heq
  rw [columnName_data, columnName_data] at hdata
  obtain ⟨hch, hrest⟩ := underscore_split_inj _ hc1 hc2 hdata
  obtain ⟨ht, hnum⟩ := underscore_split_inj _ ht1 ht2 hrest
  exact ⟨String.ext hch, String.ext ht, repr_data_inj hnum⟩

theorem mem_templateColumnNames {ch t : String} {checks : List Check} {name : String} :
    name ∈ templateColumnNames ch t checks ↔
      ∃ n, 1 ≤ n ∧ n ≤ checks.length ∧ name = columnName ch t n := by
  unfold templateColumnNames
  constructor
  · intro hm
    obtain ⟨i, hi, hname⟩ := List.mem_map.mp hm
    exact ⟨i + 1, by omega, by have := List.mem_range.mp hi; omega, hname.symm⟩
  · rintro ⟨n, h1, h2, rfl⟩
    exact List.mem_map.mpr ⟨n - 1, List.mem_range.mpr (by omega), by rw [Nat.sub_add_cancel h1]⟩

theorem nodup_templateColumnNames {ch t : String} {checks : List Check}
    (hch : '_' ∉ ch.data) (ht : '_' ∉ t.data) :
    (templateColumnNames ch t checks).Nodup := by
  unfold templateColumnNames
  refine (List.nodup_range checks.length).map_on ?_
  intro x _ y _ hxy
  have := (columnName_inj hch hch ht ht hxy).2.2
  omega

/-- Claim C4 as amended: for every hierarchy whose channel names are pairwise
distinct, whose template names are pairwise distinct within each channel
(automatic for Python dict keys), and whose channel and template names contain
no underscore, every assigned column name matches the pattern
`channel_template_sequence` with a 1-based in-range sequence number, and the
assigned names are pairwise distinct across the whole hierarchy. -/
theorem claim_C4 (h : Hierarchy)
    (hchan : (h.map Prod.fst).Nodup)
    (htempl : ∀ c ∈ h, (c.2.map Prod.fst).Nodup)
    (hund : ∀ c ∈ h, '_' ∉ c.1.data ∧ ∀ t ∈ c.2, '_' ∉ t.1.data) :
    (allColumnNames h).Nodup ∧
    ∀ name ∈ allColumnNames h, ∃ c ∈ h, ∃ t ∈ c.2, ∃ n, 1 ≤ n ∧ n ≤ t.2.length ∧
      name = columnName c.1 t.1 n := by
  constructor
  · unfold allColumnNames
    rw [List.nodup_flatMap]
    constructor
    · intro c hc
      rw [List.nodup_flatMap]
      refine ⟨fun t ht => nodup_templateColumnNames (hund c hc).1 ((hund c hc).2 t ht), ?_⟩
      have hpw : c.2.Pairwise (fun a b => a.1 ≠ b.1) := by
        have hmap := htempl c hc
        rw [List.Nodup, List.pairwise_map] at hmap
        exact hmap
      refine List.Pairwise.imp_of_mem ?_ hpw
      intro t1 t2 ht1 ht2 hne x hx1 hx2
      obtain ⟨n1, -, -, rfl⟩ := mem_templateColumnNames.mp hx1
      obtain ⟨n2, -, -, heq⟩ := mem_templateColumnNames.mp hx2
      exact hne (columnName_inj (hund c hc).1 (hund c hc).1
        ((hund c hc).2 t1 ht1) ((hund c hc).2 t2 ht2) heq).2.1
    · have hpw : h.Pairwise (fun a b => a.1 ≠ b.1) := by
        rw [List.Nodup, List.pairwise_map] at hchan
        exact hchan
      refine List.Pairwise.imp_of_mem ?_ hpw
      intro c1 c2 hc1 hc2 hne x hx1 hx2
      obtain ⟨t1, ht1, hx1'⟩ := List.mem_flatMap.mp hx1
      obtain ⟨t2, ht2, hx2'⟩ := List.mem_flatMap.mp hx2
      obtain ⟨n1, -, -, rfl⟩ := mem_templateColumnNames.mp hx1'
      obtain ⟨n2, -, -, heq⟩ := mem_templateColumnNames.mp hx2'
      exact hne (columnName_inj (hund c1 hc1).1 (hund c2 hc2).1
        ((hund c1 hc1).2 t1 ht1) ((hund c2 hc2).2 t2 ht2) heq).1
  · intro name hname
    unfold allColumnNames at hname
    obtain ⟨c, hc, hrest⟩ := List.mem_flatMap.mp hname
    obtain ⟨t, ht, hn⟩ := List.mem_flatMap.mp hrest
    obtain ⟨n, h1, h2, rfl⟩ := mem_templateColumnNames.mp hn
    exact ⟨c, hc, t, ht, n, h1, h2, rfl⟩

/-- Witness for the amended claim C4 at the sample hierarchy, whose channel
and template names are underscore-free. -/
theorem claim_C4_witness :
    (allColumnNames h1).Nodup ∧
    ∀ name ∈ allColumnNames h1, ∃ c ∈ h1, ∃ t ∈ c.2, ∃ n, 1 ≤ n ∧ n ≤ t.2.length ∧
      name = columnName c.1 t.1 n :=
  claim_C4 h1 (by decide) (by decide) (by decide)

end PythonWF
